import Mathlib

/-!
Verification of the HTTP response-caching middleware (`src/cache.js`).

The middleware is shallowly embedded: each piece of its synchronous decision
logic becomes a pure Lean function, the shared pending-request and
pending-recache registries become explicit state in small step relations, and
JavaScript truthiness is made explicit (`0`, `""` and `undefined` are falsy).
Epoch-second timestamps and the mutable `age` / `maxage` fields of the cache
context are modelled as `Int`, matching JavaScript numbers over the values the
code manipulates.
-/

set_option maxRecDepth 8000

namespace CacheMw

/-- Substring occurrence scan over character lists. -/
def containsSub (needle : List Char) : List Char → Bool
  | [] => needle.isEmpty
  | c :: rest => needle.isPrefixOf (c :: rest) || containsSub needle rest

/-- Substring test on strings: models `s.match(/tok/)` for a literal regex
`tok` (the middleware only uses literal regexes such as `/no-cache/`,
`/no-store/`, `/server/`, `/br/`, `/gzip/`, `/deflate/`). -/
def containsTok (s tok : String) : Bool :=
  containsSub tok.data s.data

/-- Digit-run parser: value of a maximal leading run of decimal digits,
as `parseInt` computes it on the capture of `/max-age=(\d+)/`. -/
def digitsVal : List Char → Nat → Nat
  | c :: rest, acc =>
    if c.isDigit then digitsVal rest (acc * 10 + (c.toNat - 48)) else acc
  | [], acc => acc

/-- First match of the regex `/max-age=(\d+)/` in `cc`: scans left to right for
an occurrence of `max-age=` immediately followed by at least one digit and
returns the value of the maximal digit run there. -/
def findMaxAge : List Char → Option Nat
  | [] => none
  | c :: rest =>
    let l := c :: rest
    if "max-age=".data.isPrefixOf l then
      let tail8 := l.drop 8
      match tail8 with
      | d :: _ => if d.isDigit then some (digitsVal tail8 0) else findMaxAge rest
      | [] => findMaxAge rest
    else findMaxAge rest

/-- The per-request cache directives derived from the `cache-control` header
(the `opts` object of `cache.js` lines 22-32). -/
structure CacheOpts where
  noCache : Bool
  noStore : Bool
  maxAgeSeconds : Option Nat
  deriving Repr, DecidableEq

/-- `cache.js` lines 22-32:
`shouldRead = !cc.match(/no-cache/) || !cc.match(/server/)`,
`shouldWrite = !cc.match(/no-store/) || !cc.match(/server/)`,
`opts = { noCache: !shouldRead, noStore: !shouldWrite }`, and
`maxAgeSeconds` is set only when both a `max-age=<n>` match and a `server`
token are present. -/
def parseOpts (cc : String) : CacheOpts :=
  let shouldRead := !(containsTok cc "no-cache") || !(containsTok cc "server")
  let shouldWrite := !(containsTok cc "no-store") || !(containsTok cc "server")
  { noCache := !shouldRead
    noStore := !shouldWrite
    maxAgeSeconds :=
      match findMaxAge cc.data with
      | some n => if containsTok cc "server" then some n else none
      | none => none }

/-- The `head` part of a stored cache entry (`cache.js` lines 291-299).
`iat`/`exp` are epoch seconds; `0` is falsy in the `if (head.iat && head.exp)`
guard of the hit path. -/
structure CacheHead where
  iat : Int
  exp : Int
  status : Nat
  message : String
  type : String
  length : String
  encoding : String
  deriving Repr, DecidableEq

/-- A stored cache entry: head plus body bytes. -/
structure CacheEntry where
  head : CacheHead
  body : List Nat
  deriving Repr, DecidableEq

/-- The hit path `tryRespondWithCache` (`cache.js` lines 61-85): on a cached
entry it replays the stored response and returns `{ rtl, age }`, where
`age = floor(now) - iat` and `rtl = (exp - iat) - age`; both stay `0` when
`iat` or `exp` is falsy.  `none` models `return false` (no cached entry). -/
def tryRespond (cached : Option CacheEntry) (now : Int) : Option (Int × Int) :=
  match cached with
  | none => none
  | some e =>
    if e.head.iat ≠ 0 ∧ e.head.exp ≠ 0 then
      let age := now - e.head.iat
      let maxage := e.head.exp - e.head.iat
      some (maxage - age, age)
    else
      some (0, 0)

/-- `cache.js` line 95: `ended.rtl < ended.age || ended.age > ms('15m')/1000`
(`ms('15m')/1000 = 900`). -/
def recacheableCode (rtl age : Int) : Bool :=
  rtl < age || age > 900

/-- Modelled from the spec: the recacheability judgement as C2 words it — the
entry's remaining lifetime (`expiresAt - issuedAt - age`, i.e. `rtl`) is
negative, or its age exceeds 900 seconds.  Used only to compare against
`recacheableCode`, which is the source's test. -/
def recacheableSpec (rtl age : Int) : Bool :=
  rtl < 0 || age > 900

/-- JavaScript falsiness of `opts.maxAgeSeconds` in the guard
`if (!opts.maxAgeSeconds)` (`cache.js` line 257): absent or `0`. -/
def maxAgeFalsy : Option Nat → Bool
  | none => true
  | some n => n == 0

/-- Synchronous decision taken by one request passing through the middleware,
for its key: whether it was served from cache, whether it first awaited a
pending origin call, whether it scheduled a background recache, and whether it
registered itself in the pending-request registry before running the origin
handler. -/
structure Decision where
  servedFromCache : Bool
  waited : Bool
  scheduledRecache : Bool
  registeredPending : Bool
  deriving Repr, DecidableEq

/-- The middleware's per-request control flow (`cache.js` lines 86-273) for a
given key, with the shared registries abstracted to `pendingReq` /
`pendingRecache` flags for that key and the store read result `cached`:

* a pending origin call is awaited (failures swallowed) and then the cache is
  re-read; a hit is served as-is, a miss falls through to the origin handler;
* with no pending call, a hit is served and a recache is scheduled iff none is
  pending and the entry is recacheable (line 96);
* on a miss the request registers a pending-request entry unless
  `opts.maxAgeSeconds` is truthy (line 257) and runs the origin handler. -/
def cacheDecide (pendingReq pendingRecache : Bool) (opts : CacheOpts)
    (cached : Option CacheEntry) (now : Int) : Decision :=
  match tryRespond cached now with
  | some rtlAge =>
    if pendingReq then
      { servedFromCache := true, waited := true
        scheduledRecache := false, registeredPending := false }
    else
      { servedFromCache := true, waited := false
        scheduledRecache := !pendingRecache && recacheableCode rtlAge.1 rtlAge.2
        registeredPending := false }
  | none =>
    { servedFromCache := false, waited := pendingReq
      scheduledRecache := false
      registeredPending := maxAgeFalsy opts.maxAgeSeconds }

/-- C4: the claim states that reads are disabled only when the header contains
`no-cache` and LACKS a `server` token.  The code (line 23) derives
`noCache = !(!match(no-cache) || !match(server))`, which is true exactly when
the header contains `no-cache` AND CONTAINS `server`: the header
`"no-cache, server"` disables reads while carrying the `server` token,
refuting the claim. -/
theorem c4_counterexample :
    (parseOpts "no-cache, server").noCache = true
    ∧ containsTok "no-cache, server" "server" = true := by
  constructor <;> rfl

/-- C4 (amended): the derived directives disable cache reads exactly when the
`cache-control` header contains `no-cache` and also contains a `server`
token, and disable cache writes exactly when it contains `no-store` and also
contains a `server` token. -/
theorem c4_amended (cc : String) :
    (parseOpts cc).noCache = (containsTok cc "no-cache" && containsTok cc "server")
    ∧ (parseOpts cc).noStore = (containsTok cc "no-store" && containsTok cc "server") := by
  refine ⟨?_, ?_⟩ <;>
    simp only [parseOpts, Bool.not_or, Bool.not_not]

/-- The store write issued by `onFinish` (`cache.js` lines 285-305) on the
miss path: entry head, body and the TTL passed to `_cache.set`. -/
structure PersistCall where
  iat : Int
  exp : Int
  status : Nat
  message : String
  type : String
  length : String
  encoding : String
  body : List Nat
  ttl : Int
  deriving Repr, DecidableEq

/-- The concatenated body `Buffer.concat(chunks)`. -/
def concatChunks (chunks : List (List Nat)) : List Nat :=
  chunks.flatten

/-- `onFinish` (`cache.js` lines 285-305): when the captured final status is
in `[200, 500)` it persists an entry with `realttl = maxage - age`,
`iat = floor(Date.now()/1000) - age` and `exp = iat + maxage`, where `age` and
`maxage` come from the request's cache context (`cacheCtx.age`,
`cacheCtx.maxage`); otherwise nothing is written.  `contentLength` falls back
to the byte length of the concatenated body when falsy (line 297). -/
def onFinishPersist (finalStatus : Nat) (finalStatusMessage : String)
    (contentType contentLength contentEncoding : String)
    (chunks : List (List Nat)) (age maxage now : Int) : Option PersistCall :=
  if 200 ≤ finalStatus ∧ finalStatus < 500 then
    let buffer := concatChunks chunks
    let iat := now - age
    some
      { iat := iat
        exp := iat + maxage
        status := finalStatus
        message := finalStatusMessage
        type := contentType
        length := if contentLength = "" then toString buffer.length else contentLength
        encoding := contentEncoding
        body := buffer
        ttl := maxage - age }
  else
    none

/-- The headers unconditionally set on the real response in the
`.finally` of `Cache.run` (`cache.js` lines 282-284): `x-cache: miss`,
`age: cacheCtx.age`, and a `cache-control` built from the scope and
`max-age=<cacheCtx.maxage>` (an empty scope is filtered out). -/
def missHeaders (scope : String) (age maxage : Int) : List (String × String) :=
  [("x-cache", "miss"),
   ("age", toString age),
   ("cache-control",
     if scope = "" then "max-age=" ++ toString maxage
     else scope ++ ", max-age=" ++ toString maxage)]

/-- Association-list lookup for response headers. -/
def lookupHeader (hs : List (String × String)) (k : String) : Option String :=
  match hs with
  | [] => none
  | (k₂, v) :: rest => if k₂ = k then some v else lookupHeader rest k

/-- C2: the claim reads the recacheability test as `remaining lifetime < 0 or
age > 900`, but line 95 tests `rtl < age`, not `rtl < 0`.  An entry with
`iat = 900`, `exp = 1050` read at `now = 1000` has `age = 100`, `rtl = 50`:
the middleware schedules a refresh although the claim's formula judges the
entry not recacheable. -/
theorem c2_counterexample :
    tryRespond (some ⟨⟨900, 1050, 200, "", "text/html", "4", ""⟩, [1, 2, 3, 4]⟩) 1000
      = some (50, 100)
    ∧ (cacheDecide false false ⟨false, false, none⟩
        (some ⟨⟨900, 1050, 200, "", "text/html", "4", ""⟩, [1, 2, 3, 4]⟩)
        1000).scheduledRecache = true
    ∧ recacheableSpec 50 100 = false := by
  refine ⟨rfl, rfl, rfl⟩

/-- C2 (amended): when a request serves a cache hit (the hit may come either
directly or after waiting on a pending origin call), a background refresh is
scheduled if and only if the request did not wait on a pending origin call,
no refresh is already pending for the key, and the entry is recacheable in
the code's sense: its remaining lifetime is below its age (`rtl < age`), or
its age exceeds 900 seconds. -/
theorem c2_amended (pendingReq pendingRecache : Bool) (opts : CacheOpts)
    (cached : Option CacheEntry) (now rtl age : Int)
    (h : tryRespond cached now = some (rtl, age)) :
    (cacheDecide pendingReq pendingRecache opts cached now).scheduledRecache
      = (!pendingReq && !pendingRecache && recacheableCode rtl age) := by
  unfold cacheDecide
  rw [h]
  cases pendingReq <;> simp

/-- Witness for `c2_amended` at the counterexample's entry: the direct hit
path with no pending refresh schedules a recache there. -/
theorem c2_amended_witness :
    (cacheDecide false false ⟨false, false, none⟩
        (some ⟨⟨900, 1050, 200, "", "text/html", "4", ""⟩, [1, 2, 3, 4]⟩)
        1000).scheduledRecache
      = (!false && !false && recacheableCode 50 100) :=
  c2_amended false false ⟨false, false, none⟩
    (some ⟨⟨900, 1050, 200, "", "text/html", "4", ""⟩, [1, 2, 3, 4]⟩)
    1000 50 100 rfl

/-- C3: on completion of an origin miss, a cache entry is persisted exactly
when the final status lies in `[200, 500)`, and the persisted call carries
`ttl = targetTTL - age`, `issuedAt = now - age` and
`expiresAt = issuedAt + targetTTL`, with `age` the cache context's
accumulated age and `targetTTL` its (downstream-settable) `maxage`. -/
theorem c3_writethrough (s : Nat) (msg ct cl ce : String)
    (chunks : List (List Nat)) (age maxage now : Int) :
    ((onFinishPersist s msg ct cl ce chunks age maxage now).isSome
        ↔ (200 ≤ s ∧ s < 500))
    ∧ (∀ p, onFinishPersist s msg ct cl ce chunks age maxage now = some p →
        p.ttl = maxage - age ∧ p.iat = now - age ∧ p.exp = (now - age) + maxage) := by
  constructor
  · unfold onFinishPersist
    by_cases h : 200 ≤ s ∧ s < 500 <;> simp [h]
  · intro p hp
    unfold onFinishPersist at hp
    by_cases h : 200 ≤ s ∧ s < 500
    · rw [if_pos h] at hp
      simp only [Option.some.injEq] at hp
      subst hp
      exact ⟨rfl, rfl, rfl⟩
    · rw [if_neg h] at hp
      exact absurd hp (by simp)

/-- Witness for `c3_writethrough`: a 200 response with context age 3 and
target TTL 60 finishing at epoch second 1000 persists an entry with
`ttl = 57`, `iat = 997`, `exp = 1057`. -/
theorem c3_writethrough_witness :
    ∃ p, onFinishPersist 200 "OK" "text/plain" "" "" [[1], [2]] 3 60 1000 = some p
      ∧ p.ttl = 57 ∧ p.iat = 997 ∧ p.exp = 1057 := by
  have h := (c3_writethrough 200 "OK" "text/plain" "" "" [[1], [2]] 3 60 1000).2
  refine ⟨_, rfl, ?_⟩
  have := h _ rfl
  exact ⟨this.1, this.2.1, this.2.2⟩

/-- C9: the claim is right that a 503 origin miss writes no cache entry and
still gets `x-cache: miss`, but wrong that no `age` header is set: the
`.finally` block (line 283) sets `age` unconditionally, so the 503 response
carries `age: 0` (the context's accumulated age). -/
theorem c9_counterexample :
    onFinishPersist 503 "" "" "" "" [] 0 60 1000 = none
    ∧ lookupHeader (missHeaders "" 0 60) "x-cache" = some "miss"
    ∧ lookupHeader (missHeaders "" 0 60) "age" = some "0" := by
  refine ⟨?_, rfl, rfl⟩
  unfold onFinishPersist
  rw [if_neg (by omega)]

/-- C9 (amended): for every origin miss whose final status is 503, no cache
entry is written, the response carries `x-cache: miss`, and the `age` header
is set to the context's accumulated age (rather than being absent). -/
theorem c9_amended (msg ct cl ce : String) (chunks : List (List Nat))
    (age maxage now : Int) (scope : String) :
    onFinishPersist 503 msg ct cl ce chunks age maxage now = none
    ∧ lookupHeader (missHeaders scope age maxage) "x-cache" = some "miss"
    ∧ lookupHeader (missHeaders scope age maxage) "age" = some (toString age) := by
  refine ⟨?_, rfl, rfl⟩
  unfold onFinishPersist
  rw [if_neg (by omega)]

/-- C10: the claim says any request whose `cache-control` carries `server`
and `max-age=<n>` skips the pending-request registration, but the guard on
line 257 is `if (!opts.maxAgeSeconds)` and `0` is falsy in JavaScript: the
header `server, max-age=0` derives the override `maxAgeSeconds = 0` yet the
request still registers a pending-request entry on its miss path. -/
theorem c10_counterexample :
    (parseOpts "server, max-age=0").maxAgeSeconds = some 0
    ∧ (cacheDecide false false (parseOpts "server, max-age=0")
        none 1000).registeredPending = true := by
  constructor <;> rfl

/-- C10 (amended): a GET request whose `cache-control` header derives an
explicit nonzero `maxAgeSeconds` override never creates a pending-request
registration for its key, on any path through the middleware. -/
theorem c10_amended (pendingReq pendingRecache : Bool) (opts : CacheOpts)
    (cached : Option CacheEntry) (now : Int) (n : Nat)
    (hm : opts.maxAgeSeconds = some n) (hn : 0 < n) :
    (cacheDecide pendingReq pendingRecache opts cached now).registeredPending
      = false := by
  unfold cacheDecide
  cases h : tryRespond cached now with
  | some v => cases pendingReq <;> simp
  | none =>
    show maxAgeFalsy opts.maxAgeSeconds = false
    rw [hm]
    show (n == 0) = false
    simp only [beq_eq_false_iff_ne, ne_eq]
    omega

/-- Witness for `c10_amended`: a request with override `maxAgeSeconds = 5`
on an uncached key does not register. -/
theorem c10_amended_witness :
    (cacheDecide false false ⟨false, false, some 5⟩ none 1000).registeredPending
      = false :=
  c10_amended false false ⟨false, false, some 5⟩ none 1000 5 rfl (by decide)

/-- Result of the pending-origin-call wait (`cache.js` lines 86-91): either
the awaited promise resolved, or it rejected with an error message. -/
inductive PendingOutcome
  | served (rtl age : Int)
  | fellThrough
  deriving Repr, DecidableEq

/-- `await Promise.resolve(PendingRequest[key]).catch(e => console.error(...))`:
the rejection, if any, is converted into a logged message and never re-thrown. -/
def awaitPendingCaught (p : Except String Unit) : Option String :=
  match p with
  | .ok _ => none
  | .error e => some e

/-- The waiter branch of the middleware (`cache.js` lines 86-91): await the
pending origin call with failures swallowed into a log entry, then re-attempt
the cache read; serve the entry on a hit, fall through to running the origin
handler on a miss.  Returns the outcome together with the logged message. -/
def pendingBranch (p : Except String Unit) (cached : Option CacheEntry)
    (now : Int) : PendingOutcome × Option String :=
  let logged := awaitPendingCaught p
  match tryRespond cached now with
  | some rtlAge => (.served rtlAge.1 rtlAge.2, logged)
  | none => (.fellThrough, logged)

/-- C8: a request that finds a pending origin call awaits it; a failure of the
awaited call is logged and never propagated (the branch's outcome does not
depend on the awaited result), and after the wait the request re-reads the
cache, serving the entry on a hit and proceeding to the origin handler on a
miss. -/
theorem c8_pending_wait (p : Except String Unit) (cached : Option CacheEntry)
    (now : Int) :
    ((pendingBranch p cached now).1 = (pendingBranch (.ok ()) cached now).1)
    ∧ (∀ e, p = .error e → (pendingBranch p cached now).2 = some e)
    ∧ (∀ rtl age, tryRespond cached now = some (rtl, age) →
        (pendingBranch p cached now).1 = .served rtl age)
    ∧ (tryRespond cached now = none →
        (pendingBranch p cached now).1 = .fellThrough) := by
  refine ⟨?_, ?_, ?_, ?_⟩
  · unfold pendingBranch
    cases tryRespond cached now <;> rfl
  · intro e he
    subst he
    unfold pendingBranch
    cases tryRespond cached now <;> rfl
  · intro rtl age h
    unfold pendingBranch
    rw [h]
  · intro h
    unfold pendingBranch
    rw [h]

/-- Witness for `c8_pending_wait`: a waiter whose awaited origin call failed
still falls through to the origin handler on an empty cache, with the failure
only logged. -/
theorem c8_pending_wait_witness :
    ((pendingBranch (.error "origin boom") none 1000).1
       = (pendingBranch (.ok ()) none 1000).1)
    ∧ (pendingBranch (.error "origin boom") none 1000).2 = some "origin boom"
    ∧ (pendingBranch (.error "origin boom") none 1000).1 = .fellThrough := by
  have h := c8_pending_wait (.error "origin boom") none 1000
  exact ⟨h.1, h.2.1 "origin boom" rfl, h.2.2.2 rfl⟩

/-- The response surface the patched methods observe through `this`: the
shadow proxy (`cache.js` lines 106-161) reports `recache = true`,
`writable = true`, and its `getHeaders`/`getHeader` read and write the
refresh's own `newHeaders` buffer, modelled here as the `headers` field. -/
structure ShadowRes where
  writable : Bool
  recache : Bool
  statusCode : Nat
  statusMessage : String
  headers : List (String × String)
  deriving Repr, DecidableEq

/-- JS object update `obj[k] = v`: replace in place or append. -/
def setH : List (String × String) → String → String → List (String × String)
  | [], k, v => [(k, v)]
  | (k₂, v₂) :: rest, k, v =>
    if k₂ = k then (k, v) :: rest else (k₂, v₂) :: setH rest k v

/-- Merge of a headers object into `setHeaders = this.getHeaders()`
(`cache.js` lines 203-217); the flat-array form (lines 205-212) performs the
same pairwise updates for its non-empty keys and is subsumed by the
pair-list form. -/
def mergeH (base : List (String × String)) (hdrs : List (String × String)) :
    List (String × String) :=
  hdrs.foldl (fun acc kv => setH acc kv.1 kv.2) base

/-- The closure state captured by the miss path (`cache.js` lines 189-193 and
228): final status/message, the three sniffed content headers, and the body
chunk buffer. -/
structure CaptureBufs where
  finalStatus : Nat
  finalStatusMessage : String
  contentType : String
  contentLength : String
  contentEncoding : String
  chunks : List (List Nat)
  deriving Repr, DecidableEq

/-- The argument forms of `res.writeHead`: with or without a status message
string; the compiled code's `else` branch (lines 199-202) assigns
`statusMessage = undefined` and then `headers = statusMessage`, so in the
no-message form any headers object passed as second argument is replaced by
`undefined` before the merge. -/
inductive WriteHeadArgs
  | noMsg (headers : Option (List (String × String)))
  | withMsg (msg : String) (headers : Option (List (String × String)))
  deriving Repr, DecidableEq

/-- The patched `writeHead` (`cache.js` lines 195-227) as invoked on a
response surface `res`: records the status (and message, when given), merges
the surviving headers object into `this.getHeaders()` (the shadow's own
buffer), sniffs the content headers, and forwards to the original
`writeHead` only when `this.writable` and not `this.recache`.  Returns the
updated surface, the updated capture state, and whether the call was
forwarded. -/
def capWriteHead (res : ShadowRes) (cap : CaptureBufs) (status : Nat)
    (args : WriteHeadArgs) : ShadowRes × CaptureBufs × Bool :=
  let msg : Option String := match args with
    | .withMsg m _ => some m
    | .noMsg _ => none
  let hdrs : List (String × String) := match args with
    | .withMsg _ (some h) => h
    | .withMsg _ none => []
    | .noMsg _ => []
  let merged := mergeH res.headers hdrs
  let pick (k old : String) : String :=
    match lookupHeader merged k with
    | some v => if v = "" then old else v
    | none => old
  let cap :=
    { cap with
      finalStatus := status
      finalStatusMessage :=
        match msg with
        | some m => m
        | none => cap.finalStatusMessage
      contentType := pick "content-type" cap.contentType
      contentLength := pick "content-length" cap.contentLength
      contentEncoding := pick "content-encoding" cap.contentEncoding }
  ({ res with headers := merged }, cap, res.writable && !res.recache)

/-- The patched `write` (`cache.js` lines 229-235): buffer the chunk, forward
only when writable and not in recache mode. -/
def capWrite (res : ShadowRes) (cap : CaptureBufs) (chunk : List Nat) :
    CaptureBufs × Bool :=
  ({ cap with chunks := cap.chunks ++ [chunk] }, res.writable && !res.recache)

/-- The patched `end` (`cache.js` lines 237-250): buffer the final chunk if
given, backfill status/message/content headers from the response surface when
still falsy, and forward only when writable and not in recache mode. -/
def capEnd (res : ShadowRes) (cap : CaptureBufs) (data : Option (List Nat)) :
    CaptureBufs × Bool :=
  let cap := match data with
    | some d => { cap with chunks := cap.chunks ++ [d] }
    | none => cap
  let hdr (k : String) : String :=
    match lookupHeader res.headers k with
    | some v => v
    | none => ""
  let cap :=
    { cap with
      finalStatus := if cap.finalStatus = 0 then res.statusCode else cap.finalStatus
      finalStatusMessage :=
        if cap.finalStatusMessage = "" then res.statusMessage else cap.finalStatusMessage
      contentType := if cap.contentType = "" then hdr "content-type" else cap.contentType
      contentLength := if cap.contentLength = "" then hdr "content-length" else cap.contentLength
      contentEncoding :=
        if cap.contentEncoding = "" then hdr "content-encoding" else cap.contentEncoding }
  (cap, res.writable && !res.recache)

/-- C5: the claim states that EVERY status/header/body write against the
shadow response is recorded in the refresh's buffers.  Headers passed in the
two-argument `writeHead(status, headers)` form are discarded before the merge
(lines 199-204 set `headers` to `undefined`): after such a call on the shadow
response the header buffer is still empty and no content-type was sniffed, so
that header write was recorded nowhere (it is not forwarded either). -/
theorem c5_counterexample :
    (capWriteHead ⟨true, true, 0, "", []⟩ ⟨0, "", "", "", "", []⟩ 200
        (.noMsg (some [("content-type", "text/html")]))).1.headers = []
    ∧ (capWriteHead ⟨true, true, 0, "", []⟩ ⟨0, "", "", "", "", []⟩ 200
        (.noMsg (some [("content-type", "text/html")]))).2.1.contentType = ""
    ∧ (capWriteHead ⟨true, true, 0, "", []⟩ ⟨0, "", "", "", "", []⟩ 200
        (.noMsg (some [("content-type", "text/html")]))).2.2 = false := by
  refine ⟨rfl, rfl, rfl⟩

/-- C5 (amended): on the shadow response (`recache = true`) the patched
`writeHead`, `write` and `end` never call through to the original response
methods; the status, any written status message, headers given in the
three-argument `writeHead` form, and every body chunk are recorded in the
refresh's own buffers — but a headers object passed in the two-argument
`writeHead` form is discarded before recording. -/
theorem c5_shadow_mode (res : ShadowRes) (cap : CaptureBufs) (status : Nat)
    (args : WriteHeadArgs) (chunk : List Nat) (data : Option (List Nat))
    (h : res.recache = true) :
    ((capWriteHead res cap status args).2.2 = false)
    ∧ ((capWrite res cap chunk).2 = false)
    ∧ ((capEnd res cap data).2 = false)
    ∧ ((capWriteHead res cap status args).2.1.finalStatus = status)
    ∧ (∀ m hs, args = .withMsg m hs →
        (capWriteHead res cap status args).2.1.finalStatusMessage = m
        ∧ (capWriteHead res cap status args).1.headers
            = mergeH res.headers (match hs with | some l => l | none => []))
    ∧ ((capWrite res cap chunk).1.chunks = cap.chunks ++ [chunk])
    ∧ (∀ d, data = some d → d ∈ (capEnd res cap data).1.chunks) := by
  refine ⟨?_, ?_, ?_, ?_, ?_, ?_, ?_⟩
  · simp [capWriteHead, h]
  · simp [capWrite, h]
  · simp [capEnd, h]
  · rfl
  · intro m hs ha
    subst ha
    cases hs <;> exact ⟨rfl, rfl⟩
  · rfl
  · intro d hd
    subst hd
    simp [capEnd]

/-- Witness for `c5_shadow_mode`: concrete shadow-mode calls with a
three-argument `writeHead`, a body chunk and a final chunk. -/
theorem c5_shadow_mode_witness :
    ((capWriteHead ⟨true, true, 0, "", []⟩ ⟨0, "", "", "", "", []⟩ 200
        (.withMsg "OK" (some [("content-type", "text/html")]))).2.2 = false)
    ∧ ((capWrite ⟨true, true, 0, "", []⟩ ⟨0, "", "", "", "", []⟩ [104, 105]).2 = false)
    ∧ ((capEnd ⟨true, true, 0, "", []⟩ ⟨0, "", "", "", "", []⟩ (some [33])).2 = false)
    ∧ ((capWrite ⟨true, true, 0, "", []⟩ ⟨0, "", "", "", "", []⟩
          [104, 105]).1.chunks = [[104, 105]]) := by
  have h := c5_shadow_mode ⟨true, true, 0, "", []⟩ ⟨0, "", "", "", "", []⟩ 200
    (.withMsg "OK" (some [("content-type", "text/html")])) [104, 105] (some [33]) rfl
  exact ⟨h.1, h.2.1, h.2.2.1, h.2.2.2.2.2.1⟩

/-- Program counter of one request task for a fixed key, at the suspension
points of the middleware (requests without a `maxAgeSeconds` override, so the
registration guard of line 257 passes):

* `start`    — about to evaluate `if (PendingRequest[key])` (line 86);
* `reading`  — inside `tryRespondWithCache`, awaiting `_cache.get(key)`;
* `waiting`  — awaiting the pending promise of another task (line 87);
* `running`  — registered in `PendingRequest` and executing the origin
  handler (lines 257-281);
* `done`     — response completed. -/
inductive SFPc
  | start
  | reading
  | waiting
  | running
  | done
  deriving Repr, DecidableEq

/-- Shared state for one key: the pending-request registry slot, whether the
store holds an entry for the key, and the interleaved request tasks. -/
structure SFState where
  pending : Bool
  entry : Bool
  tasks : List SFPc
  deriving Repr, DecidableEq

/-- Interleaving semantics of the middleware for one key.  Each step is the
synchronous block a task executes between two `await`s:

* `checkNo`/`checkYes` — the registry check of line 86;
* `getHit`   — the store read resolved with an entry: serve it and finish;
* `getMiss`  — the store read resolved empty: the task synchronously
  registers `PendingRequest[key]` (line 258) and starts the origin handler,
  with no re-check of the registry;
* `finish`   — the handler completed: `onFinish` may write the entry
  (status < 500), the registration is deleted and waiters are released;
* `release`  — a waiter's awaited promise resolved; it re-reads the cache. -/
inductive SFStep : SFState → SFState → Prop
  | checkNo (s : SFState) (i : Nat) (h : s.tasks.get? i = some .start)
      (hp : s.pending = false) :
      SFStep s ⟨s.pending, s.entry, s.tasks.set i .reading⟩
  | checkYes (s : SFState) (i : Nat) (h : s.tasks.get? i = some .start)
      (hp : s.pending = true) :
      SFStep s ⟨s.pending, s.entry, s.tasks.set i .waiting⟩
  | getHit (s : SFState) (i : Nat) (h : s.tasks.get? i = some .reading)
      (he : s.entry = true) :
      SFStep s ⟨s.pending, s.entry, s.tasks.set i .done⟩
  | getMiss (s : SFState) (i : Nat) (h : s.tasks.get? i = some .reading)
      (he : s.entry = false) :
      SFStep s ⟨true, s.entry, s.tasks.set i .running⟩
  | finish (s : SFState) (i : Nat) (wrote : Bool)
      (h : s.tasks.get? i = some .running) :
      SFStep s ⟨false, wrote || s.entry, s.tasks.set i .done⟩
  | release (s : SFState) (i : Nat) (h : s.tasks.get? i = some .waiting)
      (hp : s.pending = false) :
      SFStep s ⟨s.pending, s.entry, s.tasks.set i .reading⟩

/-- Number of tasks currently executing the origin handler. -/
def runningCount (l : List SFPc) : Nat :=
  (l.filter (fun pc => pc == SFPc.running)).length

/-- C1: two concurrent GET requests to the same uncached key can both pass
the `PendingRequest` check of line 86 while neither has yet reached the
registration of line 258 (the check and the insert are separated by the
awaited store read), after which both register and both run the origin
handler concurrently — refuting "the origin handler executes at most once
concurrently per key". -/
theorem c1_handler_runs_twice :
    Relation.ReflTransGen SFStep
      ⟨false, false, [.start, .start]⟩ ⟨true, false, [.running, .running]⟩
    ∧ runningCount [.running, .running] = 2
    ∧ ¬ (∀ s : SFState,
          Relation.ReflTransGen SFStep ⟨false, false, [.start, .start]⟩ s →
          runningCount s.tasks ≤ 1) := by
  have t1 : SFStep ⟨false, false, [.start, .start]⟩
      ⟨false, false, [.reading, .start]⟩ :=
    SFStep.checkNo ⟨false, false, [.start, .start]⟩ 0 rfl rfl
  have t2 : SFStep ⟨false, false, [.reading, .start]⟩
      ⟨false, false, [.reading, .reading]⟩ :=
    SFStep.checkNo ⟨false, false, [.reading, .start]⟩ 1 rfl rfl
  have t3 : SFStep ⟨false, false, [.reading, .reading]⟩
      ⟨true, false, [.running, .reading]⟩ :=
    SFStep.getMiss ⟨false, false, [.reading, .reading]⟩ 0 rfl rfl
  have t4 : SFStep ⟨true, false, [.running, .reading]⟩
      ⟨true, false, [.running, .running]⟩ :=
    SFStep.getMiss ⟨true, false, [.running, .reading]⟩ 1 rfl rfl
  have trace : Relation.ReflTransGen SFStep
      ⟨false, false, [.start, .start]⟩ ⟨true, false, [.running, .running]⟩ :=
    Relation.ReflTransGen.tail
      (Relation.ReflTransGen.tail
        (Relation.ReflTransGen.tail
          (Relation.ReflTransGen.tail Relation.ReflTransGen.refl t1) t2) t3) t4
  refine ⟨trace, rfl, fun hinv => ?_⟩
  have h2 := hinv ⟨true, false, [.running, .running]⟩ trace
  simp [runningCount] at h2

/-- Outcome of a background refresh task: the replayed handler resolved with
a cacheable status, resolved with a 5xx status, or threw. -/
inductive RcOutcome
  | ok (status : Nat)
  | badStatus (status : Nat)
  | threw
  deriving Repr, DecidableEq

/-- State of the recache machinery for one key: how many refresh tasks are
live and whether `PendingRecache[key]` is set. -/
structure RcState where
  live : Nat
  pending : Bool
  deriving Repr, DecidableEq

/-- End of the refresh task pipeline (`cache.js` lines 162-183): the
`.then` logs success for a status in `[200,500)` and an error otherwise, the
`.catch` logs a thrown error, and the `.finally` deletes
`PendingRecache[key]` on every path.  Returns the new registry state and the
error log entry, if any. -/
def recacheTaskEnd (o : RcOutcome) (s : RcState) : RcState × Option String :=
  match o with
  | .ok _ => (⟨s.live - 1, false⟩, none)
  | .badStatus status => (⟨s.live - 1, false⟩, some ("recache failed " ++ toString status))
  | .threw => (⟨s.live - 1, false⟩, some "recache error")

/-- Steps of the recache registry for one key.  `schedule` is the
check-and-insert of lines 96-97, which is a single synchronous block (no
`await` between the `!PendingRecache[key]` test and the assignment);
`complete` is a live task finishing with any outcome. -/
inductive RcStep : RcState → RcState → Prop
  | schedule (l : Nat) : RcStep ⟨l, false⟩ ⟨l + 1, true⟩
  | complete (l : Nat) (p : Bool) (o : RcOutcome) :
      RcStep ⟨l + 1, p⟩ (recacheTaskEnd o ⟨l + 1, p⟩).1

/-- Reachability of the recache registry from the idle state. -/
def RcReach (s : RcState) : Prop :=
  Relation.ReflTransGen RcStep ⟨0, false⟩ s

/-- C6: for every key, at most one recache task is live at any time, the
pending flag tracks exactly whether one is live, a pending refresh suppresses
scheduling a new one (every step from a pending state strictly decreases the
number of live tasks — only a completion applies), and a task's completion
clears the pending-recache entry regardless of its outcome. -/
theorem c6_recache_registry (s : RcState) (h : RcReach s) :
    s.live ≤ 1
    ∧ (s.pending ↔ s.live = 1)
    ∧ (∀ s₂, s.pending = true → RcStep s s₂ → s₂.live < s.live)
    ∧ (∀ o, (recacheTaskEnd o s).1.pending = false) := by
  have main : s.live ≤ 1 ∧ (s.pending ↔ s.live = 1) := by
    induction h with
    | refl => simp
    | tail hab hstep ih =>
      cases hstep with
      | schedule l =>
        rcases ih with ⟨hle, hiff⟩
        have hne : l ≠ 1 := by
          intro h1
          exact absurd (hiff.mpr h1) (by simp)
        have hl : l = 0 := by
          simp only [] at hle
          omega
        subst hl
        exact ⟨by simp, by simp⟩
      | complete l p o =>
        rcases ih with ⟨hle, hiff⟩
        have hl : l = 0 := by
          simp only [] at hle
          omega
        subst hl
        cases o <;> exact ⟨by simp [recacheTaskEnd], by simp [recacheTaskEnd]⟩
  refine ⟨main.1, main.2, ?_, ?_⟩
  · intro s₂ hp hstep
    cases hstep with
    | schedule l => simp at hp
    | complete l p o =>
      cases o <;> simp [recacheTaskEnd]
  · intro o
    cases o <;> rfl

/-- Witness for `c6_recache_registry` at the state reached by scheduling one
refresh from the idle registry. -/
theorem c6_recache_registry_witness :
    (⟨1, true⟩ : RcState).live ≤ 1
    ∧ (∀ o, (recacheTaskEnd o ⟨1, true⟩).1.pending = false) := by
  have h := c6_recache_registry ⟨1, true⟩
    (Relation.ReflTransGen.tail Relation.ReflTransGen.refl (RcStep.schedule 0))
  exact ⟨h.1, h.2.2.2⟩

/-- Characters `querystring.escape` leaves unescaped: ASCII alphanumerics and
`- _ . ! ~ * ' ( )` (the apostrophe is codepoint 39). -/
def unreservedChar (c : Char) : Bool :=
  c.isAlpha || c.isDigit ||
    c = '-' || c = '_' || c = '.' || c = '!' || c = '~' || c = '*' ||
    c.toNat = 39 || c = '(' || c = ')'

/-- Uppercase hexadecimal digit, as percent-encoding produces. -/
def hexDigitChar (d : Nat) : Char :=
  if d < 10 then Char.ofNat (48 + d) else Char.ofNat (55 + d)

/-- Value of a hexadecimal digit character. -/
def hexVal (c : Char) : Nat :=
  if 65 ≤ c.toNat then c.toNat - 55 else c.toNat - 48

/-- UTF-8 encoding of a codepoint, as the byte escaper operates on. -/
def utf8Bytes (n : Nat) : List Nat :=
  if n < 128 then [n]
  else if n < 2048 then [192 + n / 64, 128 + n % 64]
  else if n < 65536 then [224 + n / 4096, 128 + n / 64 % 64, 128 + n % 64]
  else [240 + n / 262144, 128 + n / 4096 % 64, 128 + n / 64 % 64, 128 + n % 64]

/-- A percent-escaped byte: `%` followed by two uppercase hex digits. -/
def pctTriple (b : Nat) : List Char :=
  ['%', hexDigitChar (b / 16), hexDigitChar (b % 16)]

/-- `querystring.escape` on one character: kept verbatim when unreserved,
otherwise percent-encoded bytewise over its UTF-8 encoding. -/
def escapeChar (c : Char) : List Char :=
  if unreservedChar c then [c] else (utf8Bytes c.toNat).flatMap pctTriple

/-- `querystring.escape` over a character list. -/
def escapeList (l : List Char) : List Char :=
  l.flatMap escapeChar

/-- `&`-intercalation of the serialized `key=value` pieces. -/
def joinAmp : List (List Char) → List Char
  | [] => []
  | [p] => p
  | p :: q :: rest => p ++ '&' :: joinAmp (q :: rest)

/-- The serialized piece for one query parameter: `escape(k)=escape(v)`. -/
def qsPiece (kv : String × String) : List Char :=
  escapeList kv.1.data ++ '=' :: escapeList kv.2.data

/-- `qs.stringify` on a query object, modelled over its entry list (an
array-valued entry contributes one pair per element, in order). -/
def stringifyQuery (q : List (String × String)) : String :=
  ⟨joinAmp (q.map qsPiece)⟩

/-- The resolved site/tenant of a request (`GetDomain`); the source field
`prefix` is renamed `domPrefix` (`prefix` is reserved in Lean). -/
structure Domain where
  domPrefix : String
  numericFormat : String
  deriving Repr, DecidableEq

/-- The resolved locale of a request (`GetLocale`). -/
structure Locale where
  tag : String
  deriving Repr, DecidableEq

/-- The resolved user of a request (`GetUser`); only the `pro` entitlement
feeds the key. -/
structure UserInfo where
  pro : Bool
  deriving Repr, DecidableEq

/-- The request data the key builder consumes (`cache.js` lines 38-60). -/
structure Req where
  method : String
  path : String
  query : List (String × String)
  acceptEncoding : String
  user : UserInfo
  domain : Option Domain
  locale : Option Locale
  deriving Repr, DecidableEq

/-- JS `x || 'none'` on a string: empty is falsy. -/
def orNone (s : String) : String :=
  if s = "" then "none" else s

/-- `domain?.prefix || 'none'`. -/
def domainTag (r : Req) : String :=
  match r.domain with
  | some d => orNone d.domPrefix
  | none => "none"

/-- `locale?.tag || 'none'`. -/
def langTag (r : Req) : String :=
  match r.locale with
  | some l => orNone l.tag
  | none => "none"

/-- `domain?.numericFormat || 'none'`. -/
def formatTag (r : Req) : String :=
  match r.domain with
  | some d => orNone d.numericFormat
  | none => "none"

/-- `isPro: !!user.pro` rendered by the template literal. -/
def isProTag (r : Req) : String :=
  if r.user.pro then "true" else "false"

/-- Encoding negotiation (`cache.js` lines 49-57): first literal-regex match
among `br`, `gzip`, `deflate` against the `accept-encoding` header, else
`identity`. -/
def encTag (ae : String) : String :=
  if containsTok ae "br" then "br"
  else if containsTok ae "gzip" then "gzip"
  else if containsTok ae "deflate" then "deflate"
  else "identity"

/-- `delete query.lang_ID` (line 42): drop the volatile locale override. -/
def stripVolatile (q : List (String × String)) : List (String × String) :=
  q.filter (fun kv => kv.1 ≠ "lang_ID")

/-- The key template of lines 58-60:
`` `${method} ${path}?${qs.stringify(query)} isPro=.. domain=.. lang=.. format=.. encoding=..` ``
over already-computed dimension strings. -/
def assembleKey (m p : String) (q : List (String × String))
    (ip dt lt ft et : String) : String :=
  m ++ " " ++ p ++ "?" ++ stringifyQuery q
    ++ " isPro=" ++ ip ++ " domain=" ++ dt ++ " lang=" ++ lt
    ++ " format=" ++ ft ++ " encoding=" ++ et

/-- The cache key built for a request (`cache.js` lines 41-60). -/
def buildKey (r : Req) : String :=
  assembleKey r.method r.path (stripVolatile r.query) (isProTag r)
    (domainTag r) (langTag r) (formatTag r) (encTag r.acceptEncoding)

/-- Tokens of an escaped string: a verbatim character or a `%XX` byte. -/
inductive EscTok
  | raw (c : Char)
  | byte (b : Nat)
  deriving Repr, DecidableEq

/-- Tokenizer for escaped output: a `%` introduces a two-hex-digit byte. -/
def toks : List Char → List EscTok
  | [] => []
  | [c] => if c = '%' then [] else [.raw c]
  | [c, d] => if c = '%' then [] else .raw c :: toks [d]
  | c :: d :: e :: rest =>
    if c = '%' then .byte (hexVal d * 16 + hexVal e) :: toks rest
    else .raw c :: toks (d :: e :: rest)

/-- Streaming decoder from tokens back to codepoints.  The first argument is
the number of UTF-8 continuation bytes still expected for the codepoint being
accumulated in the second argument; a leading byte fixes that count. -/
def fromToksSt : Nat → Nat → List EscTok → List Nat
  | _, _, [] => []
  | 0, _, .raw c :: rest => c.toNat :: fromToksSt 0 0 rest
  | 0, _, .byte b1 :: rest =>
    if b1 < 192 then b1 :: fromToksSt 0 0 rest
    else if b1 < 224 then fromToksSt 1 (b1 - 192) rest
    else if b1 < 240 then fromToksSt 2 (b1 - 224) rest
    else fromToksSt 3 (b1 - 240) rest
  | 1, acc, .byte b2 :: rest => (acc * 64 + (b2 - 128)) :: fromToksSt 0 0 rest
  | k + 2, acc, .byte b2 :: rest => fromToksSt (k + 1) (acc * 64 + (b2 - 128)) rest
  | _ + 1, _, .raw _ :: _ => []

/-- Decoder from an escaped token stream back to codepoints. -/
def fromToks (l : List EscTok) : List Nat :=
  fromToksSt 0 0 l

/-- Token image of one character under escaping. -/
def charToks (c : Char) : List EscTok :=
  if unreservedChar c then [.raw c] else (utf8Bytes c.toNat).map .byte

theorem char_toNat_lt (c : Char) : c.toNat < 1114112 := by
  show c.val.toNat < 1114112
  rcases c.valid with h | ⟨h1, h2⟩ <;> omega

theorem char_toNat_injective {a b : Char} (h : a.toNat = b.toNat) : a = b :=
  Char.ext_iff.mpr (UInt32.ext h)

theorem unreserved_ne_pct {c : Char} (h : unreservedChar c = true) : c ≠ '%' := by
  intro he
  subst he
  exact absurd h (by decide)

theorem hexVal_hexDigitChar (d : Nat) (hd : d < 16) :
    hexVal (hexDigitChar d) = d := by
  interval_cases d <;> decide

theorem utf8Bytes_lt (n : Nat) (hn : n < 1114112) :
    ∀ b ∈ utf8Bytes n, b < 256 := by
  intro b hb
  unfold utf8Bytes at hb
  split_ifs at hb with h1 h2 h3 <;> simp at hb <;> omega

theorem toks_pct (b : Nat) (hb : b < 256) (t : List Char) :
    toks (pctTriple b ++ t) = .byte b :: toks t := by
  show toks ('%' :: hexDigitChar (b / 16) :: hexDigitChar (b % 16) :: t) = _
  rw [toks, if_pos rfl]
  have e1 : hexVal (hexDigitChar (b / 16)) = b / 16 :=
    hexVal_hexDigitChar _ (by omega)
  have e2 : hexVal (hexDigitChar (b % 16)) = b % 16 :=
    hexVal_hexDigitChar _ (by omega)
  rw [e1, e2]
  congr 2
  omega

theorem toks_raw (c : Char) (h : unreservedChar c = true) (t : List Char) :
    toks (c :: t) = .raw c :: toks t := by
  have hne := unreserved_ne_pct h
  match t with
  | [] => simp [toks, hne]
  | [d] => simp [toks, hne]
  | d :: e :: rest => rw [toks, if_neg hne]

theorem toks_pctList (bs : List Nat) (hbs : ∀ b ∈ bs, b < 256) (t : List Char) :
    toks (bs.flatMap pctTriple ++ t) = bs.map EscTok.byte ++ toks t := by
  induction bs with
  | nil => simp
  | cons b bs ih =>
    have hb : b < 256 := hbs b (by simp)
    have hrest : ∀ x ∈ bs, x < 256 := fun x hx => hbs x (by simp [hx])
    simp only [List.flatMap_cons, List.map_cons, List.append_assoc, List.cons_append]
    rw [toks_pct b hb, ih hrest]

theorem toks_escapeChar (c : Char) (t : List Char) :
    toks (escapeChar c ++ t) = charToks c ++ toks t := by
  by_cases h : unreservedChar c
  · simp only [escapeChar, charToks, if_pos h, List.cons_append, List.nil_append]
    exact toks_raw c h t
  · simp only [escapeChar, charToks, if_neg h]
    exact toks_pctList _ (utf8Bytes_lt _ (char_toNat_lt c)) t

theorem fromToks_charToks (c : Char) (ts : List EscTok) :
    fromToks (charToks c ++ ts) = c.toNat :: fromToks ts := by
  by_cases h : unreservedChar c
  · simp only [charToks, if_pos h, List.cons_append, List.nil_append]
    rw [fromToks, fromToks, fromToksSt]
  · have hn := char_toNat_lt c
    unfold fromToks
    simp only [charToks, if_neg h]
    unfold utf8Bytes
    split_ifs with h1 h2 h3
    · simp only [List.map_cons, List.map_nil, List.cons_append, List.nil_append]
      rw [fromToksSt, if_pos (by omega)]
    · simp only [List.map_cons, List.map_nil, List.cons_append, List.nil_append]
      rw [fromToksSt, if_neg (by omega), if_pos (by omega), fromToksSt]
      congr 1
      omega
    · simp only [List.map_cons, List.map_nil, List.cons_append, List.nil_append]
      rw [fromToksSt, if_neg (by omega), if_neg (by omega), if_pos (by omega),
        fromToksSt, fromToksSt]
      congr 1
      omega
    · simp only [List.map_cons, List.map_nil, List.cons_append, List.nil_append]
      rw [fromToksSt, if_neg (by omega), if_neg (by omega), if_neg (by omega),
        fromToksSt, fromToksSt, fromToksSt]
      congr 1
      omega

theorem fromToks_toks_escapeList (l : List Char) :
    fromToks (toks (escapeList l)) = l.map Char.toNat := by
  induction l with
  | nil => rfl
  | cons c l ih =>
    show fromToks (toks (escapeChar c ++ escapeList l)) = _
    rw [toks_escapeChar, fromToks_charToks, ih]
    rfl

theorem escapeList_injective {l1 l2 : List Char}
    (h : escapeList l1 = escapeList l2) : l1 = l2 := by
  have h2 : l1.map Char.toNat = l2.map Char.toNat := by
    rw [← fromToks_toks_escapeList, ← fromToks_toks_escapeList, h]
  exact List.map_injective_iff.mpr (fun a b => char_toNat_injective) h2

theorem hexDigitChar_ne (d : Nat) (hd : d < 16) :
    hexDigitChar d ≠ '&' ∧ hexDigitChar d ≠ '=' := by
  interval_cases d <;> exact ⟨by decide, by decide⟩

theorem mem_escapeList {c : Char} {l : List Char} (h : c ∈ escapeList l) :
    unreservedChar c = true ∨ c = '%' ∨ ∃ d, d < 16 ∧ c = hexDigitChar d := by
  rw [escapeList, List.mem_flatMap] at h
  obtain ⟨a, ha, hc⟩ := h
  unfold escapeChar at hc
  split_ifs at hc with hu
  · simp at hc
    subst hc
    exact Or.inl hu
  · rw [List.mem_flatMap] at hc
    obtain ⟨b, hb, hcb⟩ := hc
    have hb256 : b < 256 := utf8Bytes_lt _ (char_toNat_lt a) b hb
    simp [pctTriple] at hcb
    rcases hcb with hcb | hcb | hcb
    · exact Or.inr (Or.inl hcb)
    · exact Or.inr (Or.inr ⟨b / 16, by omega, hcb⟩)
    · exact Or.inr (Or.inr ⟨b % 16, by omega, hcb⟩)

theorem amp_not_mem_escapeList (l : List Char) : '&' ∉ escapeList l := by
  intro h
  rcases mem_escapeList h with h | h | ⟨d, hd, h⟩
  · exact absurd h (by decide)
  · exact absurd h (by decide)
  · exact (hexDigitChar_ne d hd).1 h.symm

theorem eq_not_mem_escapeList (l : List Char) : '=' ∉ escapeList l := by
  intro h
  rcases mem_escapeList h with h | h | ⟨d, hd, h⟩
  · exact absurd h (by decide)
  · exact absurd h (by decide)
  · exact (hexDigitChar_ne d hd).2 h.symm

theorem sep_split (sep : Char) :
    ∀ (a b r1 r2 : List Char), sep ∉ a → sep ∉ b →
      a ++ sep :: r1 = b ++ sep :: r2 → a = b ∧ r1 = r2 := by
  intro a
  induction a with
  | nil =>
    intro b r1 r2 _ hb h
    cases b with
    | nil => simpa using h
    | cons d bt =>
      simp only [List.nil_append, List.cons_append, List.cons.injEq] at h
      exact absurd (h.1 ▸ List.mem_cons_self d bt) hb
  | cons c tl ih =>
    intro b r1 r2 ha hb h
    cases b with
    | nil =>
      simp only [List.nil_append, List.cons_append, List.cons.injEq] at h
      exact absurd (h.1.symm ▸ List.mem_cons_self c tl) ha
    | cons d bt =>
      simp only [List.cons_append, List.cons.injEq] at h
      have ha2 : sep ∉ tl := fun hm => ha (List.mem_cons_of_mem c hm)
      have hb2 : sep ∉ bt := fun hm => hb (List.mem_cons_of_mem d hm)
      obtain ⟨h1, h2⟩ := ih bt r1 r2 ha2 hb2 h.2
      exact ⟨by rw [h.1, h1], h2⟩

theorem qsPiece_amp_not_mem (kv : String × String) : '&' ∉ qsPiece kv := by
  intro h
  rw [qsPiece, List.mem_append] at h
  rcases h with h | h
  · exact amp_not_mem_escapeList _ h
  · rcases List.mem_cons.mp h with h | h
    · exact absurd h (by decide)
    · exact amp_not_mem_escapeList _ h

theorem qsPiece_ne_nil (kv : String × String) : qsPiece kv ≠ [] := by
  rw [qsPiece]
  intro h
  rcases List.append_eq_nil.mp h with ⟨_, h2⟩
  exact List.cons_ne_nil _ _ h2

theorem qsPiece_injective : Function.Injective qsPiece := by
  intro kv1 kv2 h
  rw [qsPiece, qsPiece] at h
  obtain ⟨h1, h2⟩ := sep_split '=' _ _ _ _
    (eq_not_mem_escapeList _) (eq_not_mem_escapeList _) h
  have hk : kv1.1 = kv2.1 := String.ext (escapeList_injective h1)
  have hv : kv1.2 = kv2.2 := String.ext (escapeList_injective h2)
  exact Prod.ext hk hv

theorem joinAmp_inj :
    ∀ P1 P2 : List (List Char),
      (∀ p ∈ P1, '&' ∉ p ∧ p ≠ []) → (∀ p ∈ P2, '&' ∉ p ∧ p ≠ []) →
      joinAmp P1 = joinAmp P2 → P1 = P2 := by
  intro P1
  induction P1 with
  | nil =>
    intro P2 _ hP2 h
    cases P2 with
    | nil => rfl
    | cons q Q =>
      cases Q with
      | nil =>
        rw [joinAmp, joinAmp] at h
        exact absurd h.symm (hP2 q (by simp)).2
      | cons q2 Q2 =>
        rw [joinAmp, joinAmp] at h
        rcases List.append_eq_nil.mp h.symm with ⟨_, h2⟩
        exact absurd h2 (List.cons_ne_nil _ _)
  | cons p P ih =>
    intro P2 hP1 hP2 h
    cases P2 with
    | nil =>
      cases P with
      | nil =>
        rw [joinAmp, joinAmp] at h
        exact absurd h (hP1 p (by simp)).2
      | cons p2 Pr =>
        rw [joinAmp, joinAmp] at h
        rcases List.append_eq_nil.mp h with ⟨_, h2⟩
        exact absurd h2 (List.cons_ne_nil _ _)
    | cons q Q =>
      cases P with
      | nil =>
        cases Q with
        | nil =>
          rw [joinAmp, joinAmp] at h
          rw [h]
        | cons q2 Q2 =>
          rw [joinAmp, joinAmp] at h
          have hmem : '&' ∈ p := by
            rw [h]
            exact List.mem_append_right q (List.mem_cons_self '&' _)
          exact absurd hmem (hP1 p (by simp)).1
      | cons p2 Pr =>
        cases Q with
        | nil =>
          rw [joinAmp, joinAmp] at h
          have hmem : '&' ∈ q := by
            rw [← h]
            exact List.mem_append_right p (List.mem_cons_self '&' _)
          exact absurd hmem (hP2 q (by simp)).1
        | cons q2 Q2 =>
          rw [joinAmp, joinAmp] at h
          obtain ⟨h1, h2⟩ := sep_split '&' _ _ _ _
            (hP1 p (by simp)).1 (hP2 q (by simp)).1 h
          have hrest := ih (q2 :: Q2)
            (fun x hx => hP1 x (List.mem_cons_of_mem p hx))
            (fun x hx => hP2 x (List.mem_cons_of_mem q hx))
            h2
          rw [h1, hrest]

theorem stringifyQuery_injective {q1 q2 : List (String × String)}
    (h : stringifyQuery q1 = stringifyQuery q2) : q1 = q2 := by
  have hd : joinAmp (q1.map qsPiece) = joinAmp (q2.map qsPiece) :=
    congrArg String.data h
  have hmap : q1.map qsPiece = q2.map qsPiece := by
    refine joinAmp_inj _ _ ?_ ?_ hd <;>
      · intro p hp
        rcases List.mem_map.mp hp with ⟨kv, _, hkv⟩
        exact hkv ▸ ⟨qsPiece_amp_not_mem kv, qsPiece_ne_nil kv⟩
  exact List.map_injective_iff.mpr qsPiece_injective hmap

/-- The eight dimensions the key template consumes, in template order. -/
def keyDims (r : Req) :
    String × String × List (String × String) × String × String × String ×
      String × String :=
  (r.method, r.path, stripVolatile r.query, isProTag r, domainTag r, langTag r,
    formatTag r, encTag r.acceptEncoding)

theorem keyInjMethod (p : String) (q : List (String × String))
    (ip dt lt ft et m1 m2 : String)
    (h : assembleKey m1 p q ip dt lt ft et = assembleKey m2 p q ip dt lt ft et) :
    m1 = m2 := by
  have hd := congrArg String.data h
  simp only [assembleKey, String.data_append, List.append_assoc] at hd
  exact String.ext (List.append_cancel_right hd)

theorem keyInjPath (m : String) (q : List (String × String))
    (ip dt lt ft et p1 p2 : String)
    (h : assembleKey m p1 q ip dt lt ft et = assembleKey m p2 q ip dt lt ft et) :
    p1 = p2 := by
  have hd := congrArg String.data h
  simp only [assembleKey, String.data_append, List.append_assoc] at hd
  iterate 2 replace hd := List.append_cancel_left hd
  exact String.ext (List.append_cancel_right hd)

theorem keyInjQuery (m p ip dt lt ft et : String)
    (q1 q2 : List (String × String))
    (h : assembleKey m p q1 ip dt lt ft et = assembleKey m p q2 ip dt lt ft et) :
    q1 = q2 := by
  have hd := congrArg String.data h
  simp only [assembleKey, String.data_append, List.append_assoc] at hd
  iterate 4 replace hd := List.append_cancel_left hd
  exact stringifyQuery_injective (String.ext (List.append_cancel_right hd))

theorem keyInjIsPro (m p : String) (q : List (String × String))
    (dt lt ft et ip1 ip2 : String)
    (h : assembleKey m p q ip1 dt lt ft et = assembleKey m p q ip2 dt lt ft et) :
    ip1 = ip2 := by
  have hd := congrArg String.data h
  simp only [assembleKey, String.data_append, List.append_assoc] at hd
  iterate 6 replace hd := List.append_cancel_left hd
  exact String.ext (List.append_cancel_right hd)

theorem keyInjDomain (m p : String) (q : List (String × String))
    (ip lt ft et dt1 dt2 : String)
    (h : assembleKey m p q ip dt1 lt ft et = assembleKey m p q ip dt2 lt ft et) :
    dt1 = dt2 := by
  have hd := congrArg String.data h
  simp only [assembleKey, String.data_append, List.append_assoc] at hd
  iterate 8 replace hd := List.append_cancel_left hd
  exact String.ext (List.append_cancel_right hd)

theorem keyInjLang (m p : String) (q : List (String × String))
    (ip dt ft et lt1 lt2 : String)
    (h : assembleKey m p q ip dt lt1 ft et = assembleKey m p q ip dt lt2 ft et) :
    lt1 = lt2 := by
  have hd := congrArg String.data h
  simp only [assembleKey, String.data_append, List.append_assoc] at hd
  iterate 10 replace hd := List.append_cancel_left hd
  exact String.ext (List.append_cancel_right hd)

theorem keyInjFormat (m p : String) (q : List (String × String))
    (ip dt lt et ft1 ft2 : String)
    (h : assembleKey m p q ip dt lt ft1 et = assembleKey m p q ip dt lt ft2 et) :
    ft1 = ft2 := by
  have hd := congrArg String.data h
  simp only [assembleKey, String.data_append, List.append_assoc] at hd
  iterate 12 replace hd := List.append_cancel_left hd
  exact String.ext (List.append_cancel_right hd)

theorem keyInjEncoding (m p : String) (q : List (String × String))
    (ip dt lt ft et1 et2 : String)
    (h : assembleKey m p q ip dt lt ft et1 = assembleKey m p q ip dt lt ft et2) :
    et1 = et2 := by
  have hd := congrArg String.data h
  simp only [assembleKey, String.data_append, List.append_assoc] at hd
  iterate 14 replace hd := List.append_cancel_left hd
  exact String.ext hd

/-- C7: the claim also asserts that two requests differing in any one
dimension get different keys, but the tag defaulting `locale?.tag || 'none'`
(line 46) collapses an empty locale tag and an absent locale to the same
`none` tag: two requests identical except for that locale difference build
the same key. -/
theorem c7_counterexample :
    buildKey
        { method := "GET", path := "/items", query := [("sort", "asc")],
          acceptEncoding := "gzip", user := ⟨false⟩,
          domain := some ⟨"shop", "us"⟩, locale := some ⟨""⟩ }
      = buildKey
        { method := "GET", path := "/items", query := [("sort", "asc")],
          acceptEncoding := "gzip", user := ⟨false⟩,
          domain := some ⟨"shop", "us"⟩, locale := none }
    ∧ (some (⟨""⟩ : Locale) ≠ (none : Option Locale)) := by
  exact ⟨rfl, by simp⟩

/-- C7 (amended): the key is a function of the eight derived dimensions
(method, path, query stripped of `lang_ID`, `isPro` tag, resolved domain tag,
resolved locale tag, resolved numeric-format tag, negotiated encoding): equal
dimensions give equal keys, and requests that agree on seven dimensions but
differ in the remaining one — taken after the `|| 'none'` defaulting for
domain, locale and format, and after negotiation for the encoding — always
build different keys. -/
theorem c7_key_dimensions (r1 r2 : Req) :
    (keyDims r1 = keyDims r2 → buildKey r1 = buildKey r2)
    ∧ (r1.path = r2.path → stripVolatile r1.query = stripVolatile r2.query →
        isProTag r1 = isProTag r2 → domainTag r1 = domainTag r2 →
        langTag r1 = langTag r2 → formatTag r1 = formatTag r2 →
        encTag r1.acceptEncoding = encTag r2.acceptEncoding →
        r1.method ≠ r2.method → buildKey r1 ≠ buildKey r2)
    ∧ (r1.method = r2.method → stripVolatile r1.query = stripVolatile r2.query →
        isProTag r1 = isProTag r2 → domainTag r1 = domainTag r2 →
        langTag r1 = langTag r2 → formatTag r1 = formatTag r2 →
        encTag r1.acceptEncoding = encTag r2.acceptEncoding →
        r1.path ≠ r2.path → buildKey r1 ≠ buildKey r2)
    ∧ (r1.method = r2.method → r1.path = r2.path →
        isProTag r1 = isProTag r2 → domainTag r1 = domainTag r2 →
        langTag r1 = langTag r2 → formatTag r1 = formatTag r2 →
        encTag r1.acceptEncoding = encTag r2.acceptEncoding →
        stripVolatile r1.query ≠ stripVolatile r2.query →
        buildKey r1 ≠ buildKey r2)
    ∧ (r1.method = r2.method → r1.path = r2.path →
        stripVolatile r1.query = stripVolatile r2.query →
        domainTag r1 = domainTag r2 → langTag r1 = langTag r2 →
        formatTag r1 = formatTag r2 →
        encTag r1.acceptEncoding = encTag r2.acceptEncoding →
        isProTag r1 ≠ isProTag r2 → buildKey r1 ≠ buildKey r2)
    ∧ (r1.method = r2.method → r1.path = r2.path →
        stripVolatile r1.query = stripVolatile r2.query →
        isProTag r1 = isProTag r2 → langTag r1 = langTag r2 →
        formatTag r1 = formatTag r2 →
        encTag r1.acceptEncoding = encTag r2.acceptEncoding →
        domainTag r1 ≠ domainTag r2 → buildKey r1 ≠ buildKey r2)
    ∧ (r1.method = r2.method → r1.path = r2.path →
        stripVolatile r1.query = stripVolatile r2.query →
        isProTag r1 = isProTag r2 → domainTag r1 = domainTag r2 →
        formatTag r1 = formatTag r2 →
        encTag r1.acceptEncoding = encTag r2.acceptEncoding →
        langTag r1 ≠ langTag r2 → buildKey r1 ≠ buildKey r2)
    ∧ (r1.method = r2.method → r1.path = r2.path →
        stripVolatile r1.query = stripVolatile r2.query →
        isProTag r1 = isProTag r2 → domainTag r1 = domainTag r2 →
        langTag r1 = langTag r2 →
        encTag r1.acceptEncoding = encTag r2.acceptEncoding →
        formatTag r1 ≠ formatTag r2 → buildKey r1 ≠ buildKey r2)
    ∧ (r1.method = r2.method → r1.path = r2.path →
        stripVolatile r1.query = stripVolatile r2.query →
        isProTag r1 = isProTag r2 → domainTag r1 = domainTag r2 →
        langTag r1 = langTag r2 → formatTag r1 = formatTag r2 →
        encTag r1.acceptEncoding ≠ encTag r2.acceptEncoding →
        buildKey r1 ≠ buildKey r2) := by
  refine ⟨?_, ?_, ?_, ?_, ?_, ?_, ?_, ?_, ?_⟩
  · intro h
    simp only [keyDims, Prod.mk.injEq] at h
    obtain ⟨h1, h2, h3, h4, h5, h6, h7, h8⟩ := h
    unfold buildKey
    rw [h1, h2, h3, h4, h5, h6, h7, h8]
  · intro hp hq hip hdt hlt hft het hne hk
    unfold buildKey at hk
    rw [hp, hq, hip, hdt, hlt, hft, het] at hk
    exact hne (keyInjMethod _ _ _ _ _ _ _ _ _ hk)
  · intro hm hq hip hdt hlt hft het hne hk
    unfold buildKey at hk
    rw [hm, hq, hip, hdt, hlt, hft, het] at hk
    exact hne (keyInjPath _ _ _ _ _ _ _ _ _ hk)
  · intro hm hp hip hdt hlt hft het hne hk
    unfold buildKey at hk
    rw [hm, hp, hip, hdt, hlt, hft, het] at hk
    exact hne (keyInjQuery _ _ _ _ _ _ _ _ _ hk)
  · intro hm hp hq hdt hlt hft het hne hk
    unfold buildKey at hk
    rw [hm, hp, hq, hdt, hlt, hft, het] at hk
    exact hne (keyInjIsPro _ _ _ _ _ _ _ _ _ hk)
  · intro hm hp hq hip hlt hft het hne hk
    unfold buildKey at hk
    rw [hm, hp, hq, hip, hlt, hft, het] at hk
    exact hne (keyInjDomain _ _ _ _ _ _ _ _ _ hk)
  · intro hm hp hq hip hdt hft het hne hk
    unfold buildKey at hk
    rw [hm, hp, hq, hip, hdt, hft, het] at hk
    exact hne (keyInjLang _ _ _ _ _ _ _ _ _ hk)
  · intro hm hp hq hip hdt hlt het hne hk
    unfold buildKey at hk
    rw [hm, hp, hq, hip, hdt, hlt, het] at hk
    exact hne (keyInjFormat _ _ _ _ _ _ _ _ _ hk)
  · intro hm hp hq hip hdt hlt hft hne hk
    unfold buildKey at hk
    rw [hm, hp, hq, hip, hdt, hlt, hft] at hk
    exact hne (keyInjEncoding _ _ _ _ _ _ _ _ _ hk)

/-- Witness for `c7_key_dimensions`: two requests whose `accept-encoding`
headers differ but negotiate the same encoding build the same key, and two
requests differing only in method build different keys. -/
theorem c7_key_dimensions_witness :
    buildKey
        { method := "GET", path := "/items", query := [("sort", "asc")],
          acceptEncoding := "gzip, deflate", user := ⟨true⟩,
          domain := some ⟨"shop", "us"⟩, locale := some ⟨"en"⟩ }
      = buildKey
        { method := "GET", path := "/items", query := [("sort", "asc")],
          acceptEncoding := "gzip;q=1", user := ⟨true⟩,
          domain := some ⟨"shop", "us"⟩, locale := some ⟨"en"⟩ }
    ∧ buildKey
        { method := "GET", path := "/items", query := [],
          acceptEncoding := "", user := ⟨false⟩, domain := none, locale := none }
      ≠ buildKey
        { method := "HEAD", path := "/items", query := [],
          acceptEncoding := "", user := ⟨false⟩, domain := none, locale := none } := by
  constructor
  · exact (c7_key_dimensions _ _).1 rfl
  · exact (c7_key_dimensions _ _).2.1 rfl rfl rfl rfl rfl rfl rfl (by decide)

end CacheMw
